import Mathlib

/-
Shallow embedding of
`src/angular-cesium/services/keyboard-control/keyboard-control.service.ts`.

The service keeps three mutable fields (`_currentDefinitions`,
`_activeDefinitions`, `_keyMappingFn`) and registers three handlers
(`handleKeydown`, `handleKeyup`, `handleTick`).  JS objects used as maps are
modelled as insertion-ordered association lists; `null`/`undefined` fields as
`Option`; user callbacks as Lean functions whose invocations are recorded in
an observation trace; a JS exception escaping a handler is recorded in the
step result (mutations performed before the throw persist, as in JS).
-/

/-- Raw keyboard event; `keyCode` is the numeric code consumed by
`defaultKeyMappingFn`. -/
structure KeyboardEvent where
  keyCode : Nat
deriving DecidableEq, Repr

/-- Opaque controller handle (`CesiumService`); the engine never inspects it,
it is only passed through to callbacks. -/
abbrev CesiumService := Unit

/-- Resolved parameter payload: a string-keyed mapping of opaque values. -/
abbrev Params := List (String × Nat)

/-- Outcome of invoking a user-supplied action callback: the literal `false`,
any other returned value (including `undefined`), or a thrown exception. -/
inductive CallOutcome
  | retFalse
  | retOther
  | thrown
deriving DecidableEq, Repr

/-- Type `KeyboardControlActionFn`: `(cesiumService, params, event) =>
boolean | void`, with an explicit throwing outcome.  The event argument is
nullable in the source (the tick path forwards a possibly-null snapshot). -/
abbrev KeyboardControlActionFn := CesiumService → Params → Option KeyboardEvent → CallOutcome

/-- Type `KeyboardControlValidationFn`: `(cesiumService, params, event) =>
boolean`. -/
abbrev KeyboardControlValidationFn := CesiumService → Params → Option KeyboardEvent → Bool

/-- The `params` field of a binding: absent (`null`/`undefined`, falsy), a
function of `(cesiumService, event)`, or any other object (static data). -/
inductive ParamsDef
  | empty
  | fn (f : CesiumService → Option KeyboardEvent → Params)
  | static (m : Params)

/-- The `action` field of a binding: a numeric `KeyboardAction` enum member
(`isNumber` in the source) or a user callback (`typeof === 'function'`). -/
inductive ActionDef
  | predefined (id : Nat)
  | callback (f : KeyboardControlActionFn)

/-- Structure `KeyboardControlParams` (one binding).  `done` is an external
callback `(cesiumService, event) => boolean` whose return value the engine
ignores; it is identified here by an opaque number. -/
structure KeyboardControlParams where
  action : ActionDef
  validation : Option KeyboardControlValidationFn
  params : ParamsDef
  done : Option Nat

/-- Type `KeyboardControlDefinition`: a JS object mapping key strings to
bindings, modelled as an insertion-ordered association list. -/
abbrev KeyboardControlDefinition := List (String × KeyboardControlParams)

/-- Enum `KeyEventState`. -/
inductive KeyEventState
  | IGNORED
  | NOT_PRESSED
  | PRESSED
deriving DecidableEq, Repr

/-- Structure `ActiveDefinition`: the per-key run state entry stored in
`_activeDefinitions`. -/
structure ActiveDefinition where
  keyboardEvent : Option KeyboardEvent
  state : KeyEventState
  action : Option KeyboardControlParams

/-- A key mapping function `(keyEvent) => string`. -/
abbrev KeyMapper := KeyboardEvent → String

/-- The mutable fields of `KeyboardControlService`, plus a `registered` flag
recording whether the document/tick listeners are currently attached
(`registerEvents`/`unregisterEvents`). -/
structure ServiceState where
  currentDefinitions : Option KeyboardControlDefinition
  activeDefinitions : List (String × ActiveDefinition)
  keyMappingFn : KeyMapper
  registered : Bool

/-- External collaborators of the service.  `predef` models membership in the
`PREDEFINED_KEYBOARD_ACTIONS` table.  Modelled from the spec: the table lives
in `predefined-actions.ts`, outside the reviewed unit; per the spec it is an
externally owned mapping from numeric id to an opaque void action, accessed by
lookup only, so only definedness of an id is engine-visible. -/
structure ServiceEnv where
  cs : CesiumService
  predef : Nat → Bool

/-- Observable external-callback invocations performed by the engine. -/
inductive Obs
  | paramsFnCall (e : Option KeyboardEvent)
  | validationCall (p : Params) (e : Option KeyboardEvent)
  | predefinedCall (id : Nat) (p : Params) (e : Option KeyboardEvent)
  | actionCall (key : String) (p : Params) (e : Option KeyboardEvent)
  | doneCall (id : Nat) (e : Option KeyboardEvent)
deriving DecidableEq, Repr

/-- A JavaScript exception escaping a handler: a `TypeError` from reading a
property of `null`/`undefined`, or an exception thrown by a user callback. -/
inductive JsError
  | typeError
  | userException
deriving DecidableEq, Repr

/-- Result of running one handler: the resulting service state, the trace of
callback invocations that happened, and the exception that escaped, if any.
Mutations performed before a throw persist. -/
structure StepResult where
  state : ServiceState
  trace : List Obs
  err : Option JsError

/-- JS object property read `m[k]`; `none` models `undefined`. -/
def lookupKey (m : List (String × α)) (k : String) : Option α :=
  match m with
  | [] => none
  | (k1, v) :: rest => if k1 = k then some v else lookupKey rest k

/-- JS object property write `m[k] = v`: replaces in place, or appends (in
insertion order) when the key is absent. -/
def setKey (m : List (String × α)) (k : String) (v : α) : List (String × α) :=
  match m with
  | [] => [(k, v)]
  | (k1, v1) :: rest => if k1 = k then (k1, v) :: rest else (k1, v1) :: setKey rest k v

/-- Method `defaultKeyMappingFn`: `String.fromCharCode(keyEvent.keyCode)`. -/
def defaultKeyMappingFn (keyEvent : KeyboardEvent) : String :=
  (Char.ofNat keyEvent.keyCode).toString

/-- A freshly constructed service: no definitions, empty active table, default
mapper, no listeners attached. -/
def initialState : ServiceState :=
  { currentDefinitions := none
    activeDefinitions := []
    keyMappingFn := defaultKeyMappingFn
    registered := false }

/-- Method `removeKeyboardControls()`: unregisters the listeners and nulls
`_currentDefinitions`.  Note that `_activeDefinitions` is not cleared. -/
def removeKeyboardControls (s : ServiceState) : ServiceState :=
  { s with registered := false, currentDefinitions := none }

/-- The `Object.keys(definitions).forEach` loop of `setKeyboardControls`:
each declared key gets a fresh `NOT_PRESSED` entry with null snapshot. -/
def resetKeys (m : List (String × ActiveDefinition)) (keys : List String) :
    List (String × ActiveDefinition) :=
  keys.foldl (fun acc key => setKey acc key ⟨none, KeyEventState.NOT_PRESSED, none⟩) m

/-- Method `setKeyboardControls(definitions, keyMappingFn?,
outsideOfAngularZone)`.  `definitions = none` models a falsy argument
(`null`/`undefined`); `some []` is an empty-but-present object, which is
truthy in JS and therefore installed normally.  The zone flag only selects how
listeners are registered and has no further effect on engine state. -/
def setKeyboardControls (s : ServiceState) (definitions : Option KeyboardControlDefinition)
    (keyMappingFn : Option KeyMapper) (outsideOfAngularZone : Bool) : ServiceState :=
  match definitions with
  | none => removeKeyboardControls s
  | some defs =>
      { currentDefinitions := some defs
        activeDefinitions := resetKeys s.activeDefinitions (defs.map Prod.fst)
        keyMappingFn := keyMappingFn.getD defaultKeyMappingFn
        registered := if s.currentDefinitions.isNone then true else s.registered }

/-- Method `getParams(paramsDef, keyboardEvent)`: the params resolver,
returned together with the trace of the params-function invocation it makes. -/
def getParams (cs : CesiumService) (paramsDef : ParamsDef) (keyboardEvent : Option KeyboardEvent) :
    Params × List Obs :=
  match paramsDef with
  | .empty => ([], [])
  | .fn f => (f cs keyboardEvent, [Obs.paramsFnCall keyboardEvent])
  | .static m => (m, [])

/-- Method `executeAction(execution, key, keyboardEvent)`: bails out when no
definitions are installed, resolves params, then dispatches on the shape of
`execution.action`.  Only a callback returning the literal `false` mutates the
state (the key is driven to `IGNORED` with a cleared snapshot). -/
def executeAction (env : ServiceEnv) (s : ServiceState) (execution : KeyboardControlParams)
    (key : String) (keyboardEvent : Option KeyboardEvent) : StepResult :=
  if s.currentDefinitions.isNone then ⟨s, [], none⟩
  else
    match execution.action with
    | .predefined id =>
        if env.predef id then
          ⟨s, (getParams env.cs execution.params keyboardEvent).2 ++
                [Obs.predefinedCall id (getParams env.cs execution.params keyboardEvent).1
                  keyboardEvent], none⟩
        else
          ⟨s, (getParams env.cs execution.params keyboardEvent).2, none⟩
    | .callback f =>
        match f env.cs (getParams env.cs execution.params keyboardEvent).1 keyboardEvent with
        | .thrown =>
            ⟨s, (getParams env.cs execution.params keyboardEvent).2 ++
                  [Obs.actionCall key (getParams env.cs execution.params keyboardEvent).1
                    keyboardEvent], some JsError.userException⟩
        | .retFalse =>
            ⟨{ s with activeDefinitions :=
                 setKey s.activeDefinitions key ⟨none, KeyEventState.IGNORED, none⟩ },
              (getParams env.cs execution.params keyboardEvent).2 ++
                [Obs.actionCall key (getParams env.cs execution.params keyboardEvent).1
                  keyboardEvent], none⟩
        | .retOther =>
            ⟨s, (getParams env.cs execution.params keyboardEvent).2 ++
                  [Obs.actionCall key (getParams env.cs execution.params keyboardEvent).1
                    keyboardEvent], none⟩

/-- Method `handleKeydown(e)`.  Reading `this._currentDefinitions[char]` with
null definitions throws a `TypeError`, as does `actionState.state` when the
active entry is `undefined`. -/
def handleKeydown (env : ServiceEnv) (s : ServiceState) (e : KeyboardEvent) : StepResult :=
  match s.currentDefinitions with
  | none => ⟨s, [], some JsError.typeError⟩
  | some defs =>
      match lookupKey defs (s.keyMappingFn e) with
      | none => ⟨s, [], none⟩
      | some action =>
          match lookupKey s.activeDefinitions (s.keyMappingFn e) with
          | none => ⟨s, [], some JsError.typeError⟩
          | some actionState =>
              if actionState.state = KeyEventState.IGNORED then ⟨s, [], none⟩
              else
                match action.validation with
                | some v =>
                    if v env.cs (getParams env.cs action.params (some e)).1 (some e) = true then
                      ⟨{ s with activeDefinitions :=
                           setKey s.activeDefinitions (s.keyMappingFn e) (⟨some e, KeyEventState.PRESSED, some action⟩ : ActiveDefinition) },
                        (getParams env.cs action.params (some e)).2 ++
                          [Obs.validationCall (getParams env.cs action.params (some e)).1 (some e)],
                        none⟩
                    else
                      ⟨s, (getParams env.cs action.params (some e)).2 ++
                            [Obs.validationCall (getParams env.cs action.params (some e)).1
                              (some e)], none⟩
                | none =>
                    ⟨{ s with activeDefinitions :=
                         setKey s.activeDefinitions (s.keyMappingFn e) (⟨some e, KeyEventState.PRESSED, some action⟩ : ActiveDefinition) },
                      (getParams env.cs action.params (some e)).2, none⟩

/-- Method `handleKeyup(e)`: when the mapped key has a binding, the entry is
reset to `NOT_PRESSED` (recording the key-up event, with a null action) and
`done` is invoked whenever the binding declares it — the prior state is not
consulted. -/
def handleKeyup (env : ServiceEnv) (s : ServiceState) (e : KeyboardEvent) : StepResult :=
  match s.currentDefinitions with
  | none => ⟨s, [], some JsError.typeError⟩
  | some defs =>
      match lookupKey defs (s.keyMappingFn e) with
      | none => ⟨s, [], none⟩
      | some action =>
          match action.done with
          | some d =>
              ⟨{ s with activeDefinitions :=
                   setKey s.activeDefinitions (s.keyMappingFn e) (⟨some e, KeyEventState.NOT_PRESSED, none⟩ : ActiveDefinition) },
                [Obs.doneCall d (some e)], none⟩
          | none =>
              ⟨{ s with activeDefinitions :=
                   setKey s.activeDefinitions (s.keyMappingFn e) (⟨some e, KeyEventState.NOT_PRESSED, none⟩ : ActiveDefinition) },
                [], none⟩

/-- One iteration of the `forEach` body in `handleTick`: re-reads the entry,
and runs `executeAction` only when it exists with a non-null action and state
`PRESSED`.  An `undefined` entry would make `actionState.action` throw. -/
def tickStep (env : ServiceEnv) (s : ServiceState) (key : String) : StepResult :=
  match lookupKey s.activeDefinitions key with
  | none => ⟨s, [], some JsError.typeError⟩
  | some actionState =>
      match actionState.action with
      | some act =>
          if actionState.state = KeyEventState.PRESSED then
            executeAction env s act key actionState.keyboardEvent
          else ⟨s, [], none⟩
      | none => ⟨s, [], none⟩

/-- The `forEach` of `handleTick` over the snapshot of keys: an exception
thrown by one iteration aborts the remaining iterations and propagates. -/
def tickLoop (env : ServiceEnv) (s : ServiceState) : List String → StepResult
  | [] => ⟨s, [], none⟩
  | key :: rest =>
      match tickStep env s key with
      | ⟨s1, tr1, some er⟩ => ⟨s1, tr1, some er⟩
      | ⟨s1, tr1, none⟩ =>
          ⟨(tickLoop env s1 rest).state, tr1 ++ (tickLoop env s1 rest).trace,
            (tickLoop env s1 rest).err⟩

/-- Method `handleTick()`: snapshots `Object.keys(_activeDefinitions)` and
visits each key in insertion order. -/
def handleTick (env : ServiceEnv) (s : ServiceState) : StepResult :=
  tickLoop env s (s.activeDefinitions.map Prod.fst)

/-- An external input delivered to the registered handlers by the hosting
event loop. -/
inductive InputEvent
  | keydown (e : KeyboardEvent)
  | keyup (e : KeyboardEvent)
  | tick
deriving DecidableEq, Repr

/-- Dispatches one input event to the corresponding handler. -/
def runEvent (env : ServiceEnv) (s : ServiceState) : InputEvent → StepResult
  | .keydown e => handleKeydown env s e
  | .keyup e => handleKeyup env s e
  | .tick => handleTick env s

/-- Runs a sequence of input events.  An exception escaping one handler
propagates to the hosting event loop, which keeps delivering the subsequent
events; the recorded error is the one of the last event, if any. -/
def runEvents (env : ServiceEnv) (s : ServiceState) : List InputEvent → StepResult
  | [] => ⟨s, [], none⟩
  | ev :: rest =>
      ⟨(runEvents env (runEvent env s ev).state rest).state,
        (runEvent env s ev).trace ++ (runEvents env (runEvent env s ev).state rest).trace,
        (runEvents env (runEvent env s ev).state rest).err⟩

/-- Service states reachable from a freshly constructed service through the
public surface (`setKeyboardControls`/`removeKeyboardControls`) and the three
registered handlers. -/
inductive Reachable (env : ServiceEnv) : ServiceState → Prop
  | init : Reachable env initialState
  | install (defs : Option KeyboardControlDefinition) (km : Option KeyMapper) (z : Bool)
      {s : ServiceState} :
      Reachable env s → Reachable env (setKeyboardControls s defs km z)
  | remove {s : ServiceState} : Reachable env s → Reachable env (removeKeyboardControls s)
  | keydown (e : KeyboardEvent) {s : ServiceState} :
      Reachable env s → Reachable env (handleKeydown env s e).state
  | keyup (e : KeyboardEvent) {s : ServiceState} :
      Reachable env s → Reachable env (handleKeyup env s e).state
  | tick {s : ServiceState} : Reachable env s → Reachable env (handleTick env s).state

/-- Snapshot discipline of one run-state entry as the code maintains it: a
`PRESSED` entry carries a binding and an originating event, an `IGNORED` entry
carries neither, and a `NOT_PRESSED` entry carries no binding. -/
def entryInv (ad : ActiveDefinition) : Prop :=
  (ad.state = KeyEventState.PRESSED → ad.action.isSome ∧ ad.keyboardEvent.isSome) ∧
  (ad.state = KeyEventState.IGNORED → ad.action = none ∧ ad.keyboardEvent = none) ∧
  (ad.state = KeyEventState.NOT_PRESSED → ad.action = none)

/-- Every stored run-state entry satisfies `entryInv`. -/
def stateInv (s : ServiceState) : Prop :=
  ∀ k ad, lookupKey s.activeDefinitions k = some ad → entryInv ad


/-! Concrete fixtures used by the verification theorems below. -/

/-- Fixture: external environment with an empty built-in action table. -/
def env0 : ServiceEnv := ⟨(), fun _ => false⟩

/-- Fixture: event with key code 65, mapped to "A" by the default mapper. -/
def e65 : KeyboardEvent := ⟨65⟩

/-- Fixture: event with key code 66, mapped to "B" by the default mapper. -/
def e66 : KeyboardEvent := ⟨66⟩

/-- Fixture: binding whose action is the numeric (predefined) id 3. -/
def bB3 : KeyboardControlParams := ⟨ActionDef.predefined 3, none, ParamsDef.empty, none⟩

/-- Fixture: callback binding whose action returns a non-false value. -/
def bOk : KeyboardControlParams :=
  ⟨ActionDef.callback (fun _ _ _ => CallOutcome.retOther), none, ParamsDef.empty, none⟩

/-- Fixture: callback binding whose action returns the literal false. -/
def bCancel : KeyboardControlParams :=
  ⟨ActionDef.callback (fun _ _ _ => CallOutcome.retFalse), none, ParamsDef.empty, none⟩

/-- Fixture: cancelling callback binding that also declares a done callback
(identified by 7). -/
def bCancelDone : KeyboardControlParams :=
  ⟨ActionDef.callback (fun _ _ _ => CallOutcome.retFalse), none, ParamsDef.empty, some 7⟩

/-- Fixture: callback binding whose action always throws. -/
def bThrow : KeyboardControlParams :=
  ⟨ActionDef.callback (fun _ _ _ => CallOutcome.thrown), none, ParamsDef.empty, none⟩

/-- Fixture: callback binding with a params function. -/
def bPfn : KeyboardControlParams :=
  ⟨ActionDef.callback (fun _ _ _ => CallOutcome.retOther), none,
    ParamsDef.fn (fun _ _ => [("x", 1)]), none⟩

/-- Fixture: binding set declaring only "A" (predefined action). -/
def defsA1 : KeyboardControlDefinition := [("A", bB3)]

/-- Fixture: binding set declaring only "B". -/
def defsB : KeyboardControlDefinition := [("B", bB3)]

/-- Fixture: binding set declaring "A" with a cancelling action and done. -/
def defsCancelDone : KeyboardControlDefinition := [("A", bCancelDone)]

/-- Fixture: binding set with a throwing action on "A" and a normal one on "B". -/
def defsThrow : KeyboardControlDefinition := [("A", bThrow), ("B", bOk)]

/-- Fixture: service right after installing defsA1. -/
def sA1 : ServiceState := setKeyboardControls initialState (some defsA1) none false

/-- Fixture: sA1 after key-down of "A" (entry now PRESSED). -/
def sA1d : ServiceState := (handleKeydown env0 sA1 e65).state

/-- Fixture: sA1d after re-installing defsB; the stale "A" entry persists. -/
def sC2inst : ServiceState := setKeyboardControls sA1d (some defsB) none false

/-- Fixture: service after remove() following an install. -/
def sRem : ServiceState := removeKeyboardControls sA1

/-- Fixture: service with defsCancelDone installed and "A" pressed. -/
def sCDd : ServiceState :=
  (handleKeydown env0 (setKeyboardControls initialState (some defsCancelDone) none false)
    e65).state

/-- Fixture: sCDd after one tick; the action returned false, so "A" is now
IGNORED with a cleared snapshot. -/
def sIgn : ServiceState := (handleTick env0 sCDd).state

/-- Fixture: defsThrow installed, then "A" and "B" both pressed. -/
def sThd2 : ServiceState :=
  (handleKeydown env0
    (handleKeydown env0 (setKeyboardControls initialState (some defsThrow) none false) e65).state
    e66).state

/-- Fixture: a directly-specified installed state with "A" pressed on bB3. -/
def sInst : ServiceState :=
  ⟨some defsA1, [("A", ⟨some e65, KeyEventState.PRESSED, some bB3⟩)], defaultKeyMappingFn, true⟩

/-- Fixture: installed state with two pressed keys, "A" on bCancel and "B" on
bOk. -/
def sTwo : ServiceState :=
  ⟨some defsA1,
    [("A", ⟨some e65, KeyEventState.PRESSED, some bCancel⟩),
     ("B", ⟨some e66, KeyEventState.PRESSED, some bOk⟩)],
    defaultKeyMappingFn, true⟩

/-! Helper lemmas about the association-list map operations. -/

theorem lookupKey_setKey_self (m : List (String × α)) (k : String) (v : α) :
    lookupKey (setKey m k v) k = some v := by
  induction m with
  | nil => simp [setKey, lookupKey]
  | cons hd tl ih =>
      obtain ⟨k1, v1⟩ := hd
      by_cases h : k1 = k
      · simp [setKey, lookupKey, h]
      · simp [setKey, lookupKey, h, ih]

theorem lookupKey_setKey_other (m : List (String × α)) (k k2 : String) (v : α) (h : k2 ≠ k) :
    lookupKey (setKey m k v) k2 = lookupKey m k2 := by
  have hne : k ≠ k2 := fun hh => h hh.symm
  induction m with
  | nil => simp [setKey, lookupKey, hne]
  | cons hd tl ih =>
      obtain ⟨k1, v1⟩ := hd
      by_cases h1 : k1 = k
      · subst h1
        simp [setKey, lookupKey, hne]
      · simp only [setKey, if_neg h1, lookupKey]
        by_cases h2 : k1 = k2
        · simp [h2]
        · simp [h2, ih]

theorem lookupKey_isSome_of_mem (m : List (String × α)) (k : String)
    (h : k ∈ m.map Prod.fst) : (lookupKey m k).isSome := by
  induction m with
  | nil => simp at h
  | cons hd tl ih =>
      obtain ⟨k1, v1⟩ := hd
      by_cases h1 : k1 = k
      · simp [lookupKey, h1]
      · simp only [List.map_cons, List.mem_cons] at h
        rcases h with h | h
        · exact absurd h.symm h1
        · simp [lookupKey, h1, ih h]

theorem lookupKey_resetKeys (m : List (String × ActiveDefinition)) (keys : List String)
    (k : String) :
    lookupKey (resetKeys m keys) k =
      if k ∈ keys then some ⟨none, KeyEventState.NOT_PRESSED, none⟩ else lookupKey m k := by
  induction keys generalizing m with
  | nil => simp [resetKeys]
  | cons hd tl ih =>
      have hstep : resetKeys m (hd :: tl) =
          resetKeys (setKey m hd ⟨none, KeyEventState.NOT_PRESSED, none⟩) tl := rfl
      rw [hstep, ih]
      by_cases hmem : k ∈ tl
      · simp [hmem, List.mem_cons]
      · by_cases hk : k = hd
        · subst hk
          simp [hmem, lookupKey_setKey_self]
        · simp [hmem, hk, lookupKey_setKey_other m hd k _ hk]

/-! Shape lemmas: each handler only rewrites `activeDefinitions`. -/

theorem executeAction_state (env : ServiceEnv) (s : ServiceState)
    (ex : KeyboardControlParams) (k : String) (e : Option KeyboardEvent) :
    (executeAction env s ex k e).state = s ∨
    (executeAction env s ex k e).state =
      { s with activeDefinitions :=
          setKey s.activeDefinitions k ⟨none, KeyEventState.IGNORED, none⟩ } := by
  unfold executeAction
  split
  · exact Or.inl rfl
  · split
    · split
      · exact Or.inl rfl
      · exact Or.inl rfl
    · split
      · exact Or.inl rfl
      · exact Or.inr rfl
      · exact Or.inl rfl

theorem executeAction_frame (env : ServiceEnv) (s : ServiceState)
    (ex : KeyboardControlParams) (k : String) (e : Option KeyboardEvent) :
    (executeAction env s ex k e).state.currentDefinitions = s.currentDefinitions ∧
    (executeAction env s ex k e).state.keyMappingFn = s.keyMappingFn ∧
    (executeAction env s ex k e).state.registered = s.registered := by
  rcases executeAction_state env s ex k e with h | h <;> rw [h] <;> exact ⟨rfl, rfl, rfl⟩

theorem executeAction_lookup_other (env : ServiceEnv) (s : ServiceState)
    (ex : KeyboardControlParams) (k : String) (e : Option KeyboardEvent) (k2 : String)
    (h : k2 ≠ k) :
    lookupKey (executeAction env s ex k e).state.activeDefinitions k2 =
      lookupKey s.activeDefinitions k2 := by
  rcases executeAction_state env s ex k e with h1 | h1 <;> rw [h1]
  exact lookupKey_setKey_other _ _ _ _ h

theorem executeAction_lookup (env : ServiceEnv) (s : ServiceState)
    (ex : KeyboardControlParams) (k : String) (e : Option KeyboardEvent) (k2 : String) :
    lookupKey (executeAction env s ex k e).state.activeDefinitions k2 =
      lookupKey s.activeDefinitions k2 ∨
    lookupKey (executeAction env s ex k e).state.activeDefinitions k2 =
      some ⟨none, KeyEventState.IGNORED, none⟩ := by
  rcases executeAction_state env s ex k e with h1 | h1 <;> rw [h1]
  · exact Or.inl rfl
  · by_cases hk : k2 = k
    · subst hk
      exact Or.inr (lookupKey_setKey_self _ _ _)
    · exact Or.inl (lookupKey_setKey_other _ _ _ _ hk)

theorem handleKeydown_frame (env : ServiceEnv) (s : ServiceState) (e : KeyboardEvent) :
    (handleKeydown env s e).state.currentDefinitions = s.currentDefinitions ∧
    (handleKeydown env s e).state.keyMappingFn = s.keyMappingFn ∧
    (handleKeydown env s e).state.registered = s.registered := by
  unfold handleKeydown
  repeat' split
  all_goals exact ⟨rfl, rfl, rfl⟩

theorem handleKeyup_frame (env : ServiceEnv) (s : ServiceState) (e : KeyboardEvent) :
    (handleKeyup env s e).state.currentDefinitions = s.currentDefinitions ∧
    (handleKeyup env s e).state.keyMappingFn = s.keyMappingFn ∧
    (handleKeyup env s e).state.registered = s.registered := by
  unfold handleKeyup
  repeat' split
  all_goals exact ⟨rfl, rfl, rfl⟩

theorem tickStep_frame (env : ServiceEnv) (s : ServiceState) (key : String) :
    (tickStep env s key).state.currentDefinitions = s.currentDefinitions ∧
    (tickStep env s key).state.keyMappingFn = s.keyMappingFn ∧
    (tickStep env s key).state.registered = s.registered := by
  unfold tickStep
  repeat' split
  · exact ⟨rfl, rfl, rfl⟩
  · exact executeAction_frame env s _ key _
  · exact ⟨rfl, rfl, rfl⟩
  · exact ⟨rfl, rfl, rfl⟩

theorem tickLoop_frame (env : ServiceEnv) (keys : List String) (s : ServiceState) :
    (tickLoop env s keys).state.currentDefinitions = s.currentDefinitions ∧
    (tickLoop env s keys).state.keyMappingFn = s.keyMappingFn ∧
    (tickLoop env s keys).state.registered = s.registered := by
  induction keys generalizing s with
  | nil => exact ⟨rfl, rfl, rfl⟩
  | cons key rest ih =>
      have hf := tickStep_frame env s key
      unfold tickLoop
      split
      next s1 tr1 er heq =>
        rw [heq] at hf
        exact hf
      next s1 tr1 heq =>
        rw [heq] at hf
        have ih1 := ih s1
        exact ⟨ih1.1.trans hf.1, ih1.2.1.trans hf.2.1, ih1.2.2.trans hf.2.2⟩

theorem runEvent_frame (env : ServiceEnv) (s : ServiceState) (ev : InputEvent) :
    (runEvent env s ev).state.currentDefinitions = s.currentDefinitions ∧
    (runEvent env s ev).state.keyMappingFn = s.keyMappingFn ∧
    (runEvent env s ev).state.registered = s.registered := by
  cases ev with
  | keydown e => exact handleKeydown_frame env s e
  | keyup e => exact handleKeyup_frame env s e
  | tick => exact tickLoop_frame env _ s

/-! Behaviour with no installed definitions (`_currentDefinitions === null`). -/

theorem executeAction_noDefs (env : ServiceEnv) (s : ServiceState)
    (ex : KeyboardControlParams) (k : String) (e : Option KeyboardEvent)
    (h : s.currentDefinitions = none) :
    executeAction env s ex k e = ⟨s, [], none⟩ := by
  unfold executeAction
  rw [h]
  rfl

theorem tickStep_noDefs (env : ServiceEnv) (s : ServiceState) (key : String)
    (h : s.currentDefinitions = none) (hsome : (lookupKey s.activeDefinitions key).isSome) :
    tickStep env s key = ⟨s, [], none⟩ := by
  unfold tickStep
  cases hlk : lookupKey s.activeDefinitions key with
  | none => rw [hlk] at hsome; simp at hsome
  | some ad =>
      cases had : ad.action with
      | none => simp [had]
      | some act =>
          by_cases hst : ad.state = KeyEventState.PRESSED
          · simp [had, hst, executeAction_noDefs env s act key ad.keyboardEvent h]
          · simp [had, hst]

theorem tickLoop_noDefs (env : ServiceEnv) (keys : List String) (s : ServiceState)
    (h : s.currentDefinitions = none)
    (hkeys : ∀ k ∈ keys, (lookupKey s.activeDefinitions k).isSome) :
    tickLoop env s keys = ⟨s, [], none⟩ := by
  induction keys with
  | nil => rfl
  | cons key rest ih =>
      have hstep := tickStep_noDefs env s key h (hkeys key (List.mem_cons_self key rest))
      unfold tickLoop
      rw [hstep]
      have ihr := ih (fun k hk => hkeys k (List.mem_cons_of_mem key hk))
      simp [ihr]

theorem handleTick_noDefs (env : ServiceEnv) (s : ServiceState)
    (h : s.currentDefinitions = none) :
    handleTick env s = ⟨s, [], none⟩ := by
  unfold handleTick
  exact tickLoop_noDefs env _ s h (fun k hk => lookupKey_isSome_of_mem _ k hk)

/-! Trace lemmas: which observations each code path can emit. -/

theorem getParams_no_actionCall (cs : CesiumService) (pd : ParamsDef)
    (e : Option KeyboardEvent) (k : String) (p : Params) (e2 : Option KeyboardEvent) :
    Obs.actionCall k p e2 ∉ (getParams cs pd e).2 := by
  cases pd <;> simp [getParams]

theorem executeAction_actionCall_key (env : ServiceEnv) (s : ServiceState)
    (ex : KeyboardControlParams) (key : String) (e : Option KeyboardEvent)
    (k : String) (p : Params) (e2 : Option KeyboardEvent)
    (h : Obs.actionCall k p e2 ∈ (executeAction env s ex key e).trace) : k = key := by
  unfold executeAction at h
  split at h
  · simp at h
  · split at h
    · split at h
      · dsimp only at h
        simp only [List.mem_append, List.mem_singleton] at h
        rcases h with h | h
        · exact absurd h (getParams_no_actionCall env.cs ex.params e k p e2)
        · exact Obs.noConfusion h
      · exact absurd h (getParams_no_actionCall env.cs ex.params e k p e2)
    · split at h <;>
      · dsimp only at h
        simp only [List.mem_append, List.mem_singleton] at h
        rcases h with h | h
        · exact absurd h (getParams_no_actionCall env.cs ex.params e k p e2)
        · injection h with h1 h2 h3

theorem handleKeydown_no_actionCall (env : ServiceEnv) (s : ServiceState) (e : KeyboardEvent)
    (k : String) (p : Params) (e2 : Option KeyboardEvent) :
    Obs.actionCall k p e2 ∉ (handleKeydown env s e).trace := by
  unfold handleKeydown
  repeat' split
  all_goals intro h
  all_goals dsimp only at h
  all_goals
    first
    | (simp at h; done)
    | (simp only [List.mem_append, List.mem_singleton] at h
       rcases h with h | h
       · exact getParams_no_actionCall env.cs _ _ k p e2 h
       · exact Obs.noConfusion h)
    | exact getParams_no_actionCall env.cs _ _ k p e2 h

theorem handleKeyup_no_actionCall (env : ServiceEnv) (s : ServiceState) (e : KeyboardEvent)
    (k : String) (p : Params) (e2 : Option KeyboardEvent) :
    Obs.actionCall k p e2 ∉ (handleKeyup env s e).trace := by
  unfold handleKeyup
  repeat' split
  all_goals simp

/-! Preservation of an `IGNORED` entry across events (no key-up of its key). -/

theorem handleKeydown_ignored_state (env : ServiceEnv) (s : ServiceState) (e : KeyboardEvent)
    (ad : ActiveDefinition)
    (h : lookupKey s.activeDefinitions (s.keyMappingFn e) = some ad)
    (hig : ad.state = KeyEventState.IGNORED) :
    (handleKeydown env s e).state = s := by
  unfold handleKeydown
  split
  · rfl
  · split
    · rfl
    · split
      · rfl
      · next ast ha =>
          rw [h] at ha
          injection ha with ha
          subst ha
          split
          · rfl
          · next hcond => exact absurd hig hcond

theorem handleKeydown_lookup_other (env : ServiceEnv) (s : ServiceState) (e : KeyboardEvent)
    (k : String) (hne : s.keyMappingFn e ≠ k) :
    lookupKey (handleKeydown env s e).state.activeDefinitions k =
      lookupKey s.activeDefinitions k := by
  unfold handleKeydown
  repeat' split
  all_goals try rfl
  all_goals exact lookupKey_setKey_other _ _ _ _ (fun hh => hne hh.symm)

theorem handleKeyup_lookup_other (env : ServiceEnv) (s : ServiceState) (e : KeyboardEvent)
    (k : String) (hne : s.keyMappingFn e ≠ k) :
    lookupKey (handleKeyup env s e).state.activeDefinitions k =
      lookupKey s.activeDefinitions k := by
  unfold handleKeyup
  repeat' split
  all_goals try rfl
  all_goals exact lookupKey_setKey_other _ _ _ _ (fun hh => hne hh.symm)

theorem handleKeydown_preserves_ignored (env : ServiceEnv) (s : ServiceState) (e : KeyboardEvent)
    (k : String) (ad : ActiveDefinition)
    (h : lookupKey s.activeDefinitions k = some ad) (hig : ad.state = KeyEventState.IGNORED) :
    lookupKey (handleKeydown env s e).state.activeDefinitions k = some ad := by
  by_cases hc : s.keyMappingFn e = k
  · rw [handleKeydown_ignored_state env s e ad (by rw [hc]; exact h) hig]
    exact h
  · rw [handleKeydown_lookup_other env s e k hc]
    exact h

theorem tickStep_preserves_ignored (env : ServiceEnv) (s : ServiceState) (key k : String)
    (h : lookupKey s.activeDefinitions k = some ⟨none, KeyEventState.IGNORED, none⟩) :
    lookupKey (tickStep env s key).state.activeDefinitions k =
      some ⟨none, KeyEventState.IGNORED, none⟩ ∧
    ∀ p e2, Obs.actionCall k p e2 ∉ (tickStep env s key).trace := by
  by_cases hk : key = k
  · subst hk
    unfold tickStep
    rw [h]
    exact ⟨h, by simp⟩
  · constructor
    · unfold tickStep
      repeat' split
      all_goals try exact h
      exact (executeAction_lookup_other env s _ key _ k (fun hh => hk hh.symm)).trans h
    · intro p e2 hmem
      unfold tickStep at hmem
      split at hmem
      · simp at hmem
      · split at hmem
        · split at hmem
          · exact hk (executeAction_actionCall_key env s _ key _ k p e2 hmem).symm
          · simp at hmem
        · simp at hmem

theorem tickLoop_preserves_ignored (env : ServiceEnv) (keys : List String) (s : ServiceState)
    (k : String)
    (h : lookupKey s.activeDefinitions k = some ⟨none, KeyEventState.IGNORED, none⟩) :
    lookupKey (tickLoop env s keys).state.activeDefinitions k =
      some ⟨none, KeyEventState.IGNORED, none⟩ ∧
    ∀ p e2, Obs.actionCall k p e2 ∉ (tickLoop env s keys).trace := by
  induction keys generalizing s with
  | nil => exact ⟨h, by simp [tickLoop]⟩
  | cons key rest ih =>
      have hstep := tickStep_preserves_ignored env s key k h
      unfold tickLoop
      split
      next s1 tr1 er heq =>
        rw [heq] at hstep
        exact hstep
      next s1 tr1 heq =>
        rw [heq] at hstep
        have ihr := ih s1 hstep.1
        refine ⟨ihr.1, ?_⟩
        intro p e2 hmem
        dsimp only at hmem
        rcases List.mem_append.mp hmem with hmem | hmem
        · exact hstep.2 p e2 hmem
        · exact ihr.2 p e2 hmem

theorem handleTick_preserves_ignored (env : ServiceEnv) (s : ServiceState) (k : String)
    (h : lookupKey s.activeDefinitions k = some ⟨none, KeyEventState.IGNORED, none⟩) :
    lookupKey (handleTick env s).state.activeDefinitions k =
      some ⟨none, KeyEventState.IGNORED, none⟩ ∧
    ∀ p e2, Obs.actionCall k p e2 ∉ (handleTick env s).trace :=
  tickLoop_preserves_ignored env _ s k h

theorem runEvents_preserves_ignored (env : ServiceEnv) (evs : List InputEvent)
    (s : ServiceState) (k : String)
    (h : lookupKey s.activeDefinitions k = some ⟨none, KeyEventState.IGNORED, none⟩)
    (hkeyup : ∀ e : KeyboardEvent, InputEvent.keyup e ∈ evs → s.keyMappingFn e ≠ k) :
    lookupKey (runEvents env s evs).state.activeDefinitions k =
      some ⟨none, KeyEventState.IGNORED, none⟩ ∧
    ∀ p e2, Obs.actionCall k p e2 ∉ (runEvents env s evs).trace := by
  induction evs generalizing s with
  | nil => exact ⟨h, by simp [runEvents]⟩
  | cons ev rest ih =>
      have hstep : lookupKey (runEvent env s ev).state.activeDefinitions k =
          some ⟨none, KeyEventState.IGNORED, none⟩ ∧
          ∀ p e2, Obs.actionCall k p e2 ∉ (runEvent env s ev).trace := by
        cases ev with
        | keydown e =>
            exact ⟨handleKeydown_preserves_ignored env s e k _ h rfl,
              fun p e2 => handleKeydown_no_actionCall env s e k p e2⟩
        | keyup e =>
            have hne := hkeyup e (List.mem_cons_self _ _)
            exact ⟨(handleKeyup_lookup_other env s e k hne).trans h,
              fun p e2 => handleKeyup_no_actionCall env s e k p e2⟩
        | tick => exact handleTick_preserves_ignored env s k h
      have hmap := (runEvent_frame env s ev).2.1
      have ihr := ih (runEvent env s ev).state hstep.1
        (fun e he => by rw [hmap]; exact hkeyup e (List.mem_cons_of_mem _ he))
      refine ⟨ihr.1, ?_⟩
      intro p e2 hmem
      unfold runEvents at hmem
      dsimp only at hmem
      rcases List.mem_append.mp hmem with hmem | hmem
      · exact hstep.2 p e2 hmem
      · exact ihr.2 p e2 hmem

/-! State-shape lemmas and preservation of the snapshot invariant. -/

theorem lookupKey_setKey_cases (m : List (String × α)) (k : String) (v : α) (k2 : String)
    (ad : α) (h : lookupKey (setKey m k v) k2 = some ad) :
    ad = v ∨ lookupKey m k2 = some ad := by
  by_cases hk : k2 = k
  · subst hk
    rw [lookupKey_setKey_self] at h
    exact Or.inl (Option.some.inj h).symm
  · rw [lookupKey_setKey_other _ _ _ _ hk] at h
    exact Or.inr h

theorem setKeyboardControls_lookup (s : ServiceState) (d : KeyboardControlDefinition)
    (km : Option KeyMapper) (z : Bool) (k : String) :
    lookupKey (setKeyboardControls s (some d) km z).activeDefinitions k =
      if k ∈ d.map Prod.fst then some ⟨none, KeyEventState.NOT_PRESSED, none⟩
      else lookupKey s.activeDefinitions k := by
  unfold setKeyboardControls
  exact lookupKey_resetKeys _ _ _

theorem handleKeydown_state_shape (env : ServiceEnv) (s : ServiceState) (e : KeyboardEvent) :
    (handleKeydown env s e).state = s ∨
    ∃ b, (handleKeydown env s e).state =
      { s with activeDefinitions :=
          setKey s.activeDefinitions (s.keyMappingFn e) ⟨some e, KeyEventState.PRESSED, some b⟩ } := by
  unfold handleKeydown
  repeat' split
  all_goals try exact Or.inl rfl
  all_goals exact Or.inr ⟨_, rfl⟩

theorem handleKeyup_state_shape (env : ServiceEnv) (s : ServiceState) (e : KeyboardEvent) :
    (handleKeyup env s e).state = s ∨
    (handleKeyup env s e).state =
      { s with activeDefinitions :=
          setKey s.activeDefinitions (s.keyMappingFn e) ⟨some e, KeyEventState.NOT_PRESSED, none⟩ } := by
  unfold handleKeyup
  repeat' split
  all_goals try exact Or.inl rfl
  all_goals exact Or.inr rfl

theorem tickStep_state (env : ServiceEnv) (s : ServiceState) (key : String) :
    (tickStep env s key).state = s ∨
    ∃ ex e, (tickStep env s key).state = (executeAction env s ex key e).state := by
  unfold tickStep
  repeat' split
  all_goals try exact Or.inl rfl
  all_goals exact Or.inr ⟨_, _, rfl⟩

theorem entryInv_pressed (e : KeyboardEvent) (b : KeyboardControlParams) :
    entryInv ⟨some e, KeyEventState.PRESSED, some b⟩ :=
  ⟨fun _ => ⟨rfl, rfl⟩, fun hh => KeyEventState.noConfusion hh,
    fun hh => KeyEventState.noConfusion hh⟩

theorem entryInv_notPressed (oe : Option KeyboardEvent) :
    entryInv ⟨oe, KeyEventState.NOT_PRESSED, none⟩ :=
  ⟨fun hh => KeyEventState.noConfusion hh, fun hh => KeyEventState.noConfusion hh, fun _ => rfl⟩

theorem entryInv_ignoredEntry : entryInv ⟨none, KeyEventState.IGNORED, none⟩ :=
  ⟨fun hh => KeyEventState.noConfusion hh, fun _ => ⟨rfl, rfl⟩,
    fun hh => KeyEventState.noConfusion hh⟩

theorem stateInv_initial : stateInv initialState := by
  intro k ad h
  exact Option.noConfusion h

theorem stateInv_install (s : ServiceState) (defs : Option KeyboardControlDefinition)
    (km : Option KeyMapper) (z : Bool) (h : stateInv s) :
    stateInv (setKeyboardControls s defs km z) := by
  cases defs with
  | none => exact h
  | some d =>
      intro k ad hlk
      rw [setKeyboardControls_lookup] at hlk
      split at hlk
      · injection hlk with hlk
        subst hlk
        exact entryInv_notPressed none
      · exact h k ad hlk

theorem stateInv_remove (s : ServiceState) (h : stateInv s) :
    stateInv (removeKeyboardControls s) := h

theorem stateInv_handleKeydown (env : ServiceEnv) (s : ServiceState) (e : KeyboardEvent)
    (h : stateInv s) : stateInv (handleKeydown env s e).state := by
  rcases handleKeydown_state_shape env s e with hs | ⟨b, hs⟩ <;> rw [hs]
  · exact h
  · intro k ad hlk
    rcases lookupKey_setKey_cases _ _ _ _ _ hlk with had | had
    · subst had
      exact entryInv_pressed e b
    · exact h k ad had

theorem stateInv_handleKeyup (env : ServiceEnv) (s : ServiceState) (e : KeyboardEvent)
    (h : stateInv s) : stateInv (handleKeyup env s e).state := by
  rcases handleKeyup_state_shape env s e with hs | hs <;> rw [hs]
  · exact h
  · intro k ad hlk
    rcases lookupKey_setKey_cases _ _ _ _ _ hlk with had | had
    · subst had
      exact entryInv_notPressed (some e)
    · exact h k ad had

theorem stateInv_executeAction (env : ServiceEnv) (s : ServiceState)
    (ex : KeyboardControlParams) (k : String) (e : Option KeyboardEvent)
    (h : stateInv s) : stateInv (executeAction env s ex k e).state := by
  rcases executeAction_state env s ex k e with hs | hs <;> rw [hs]
  · exact h
  · intro k2 ad hlk
    rcases lookupKey_setKey_cases _ _ _ _ _ hlk with had | had
    · subst had
      exact entryInv_ignoredEntry
    · exact h k2 ad had

theorem stateInv_tickStep (env : ServiceEnv) (s : ServiceState) (key : String)
    (h : stateInv s) : stateInv (tickStep env s key).state := by
  rcases tickStep_state env s key with hs | ⟨ex, e, hs⟩ <;> rw [hs]
  · exact h
  · exact stateInv_executeAction env s ex key e h

theorem stateInv_tickLoop (env : ServiceEnv) (keys : List String) (s : ServiceState)
    (h : stateInv s) : stateInv (tickLoop env s keys).state := by
  induction keys generalizing s with
  | nil => exact h
  | cons key rest ih =>
      have hstep := stateInv_tickStep env s key h
      unfold tickLoop
      split
      next s1 tr1 er heq =>
        rw [heq] at hstep
        exact hstep
      next s1 tr1 heq =>
        rw [heq] at hstep
        exact ih s1 hstep

/-! Remaining helper lemmas for the claim theorems. -/

theorem isNoneFalse {o : Option α} (h : o ≠ none) : o.isNone = false := by
  cases o
  · exact absurd rfl h
  · rfl

theorem executeAction_predefined_eq (env : ServiceEnv) (s : ServiceState)
    (b : KeyboardControlParams) (k : String) (e : Option KeyboardEvent) (id : Nat)
    (hact : b.action = ActionDef.predefined id) (hnone : s.currentDefinitions.isNone = false) :
    executeAction env s b k e =
      if env.predef id then
        ⟨s, (getParams env.cs b.params e).2 ++
              [Obs.predefinedCall id (getParams env.cs b.params e).1 e], none⟩
      else ⟨s, (getParams env.cs b.params e).2, none⟩ := by
  simp only [executeAction, hnone, Bool.false_eq_true, if_false, hact]

theorem executeAction_callback_eq (env : ServiceEnv) (s : ServiceState)
    (b : KeyboardControlParams) (k : String) (e : Option KeyboardEvent)
    (f : KeyboardControlActionFn)
    (hact : b.action = ActionDef.callback f) (hnone : s.currentDefinitions.isNone = false) :
    executeAction env s b k e =
      match f env.cs (getParams env.cs b.params e).1 e with
      | CallOutcome.thrown =>
          ⟨s, (getParams env.cs b.params e).2 ++
                [Obs.actionCall k (getParams env.cs b.params e).1 e],
            some JsError.userException⟩
      | CallOutcome.retFalse =>
          ⟨{ s with activeDefinitions :=
               setKey s.activeDefinitions k ⟨none, KeyEventState.IGNORED, none⟩ },
            (getParams env.cs b.params e).2 ++
              [Obs.actionCall k (getParams env.cs b.params e).1 e], none⟩
      | CallOutcome.retOther =>
          ⟨s, (getParams env.cs b.params e).2 ++
                [Obs.actionCall k (getParams env.cs b.params e).1 e], none⟩ := by
  simp only [executeAction, hnone, Bool.false_eq_true, if_false, hact]

theorem tickLoop_lookup_entry (env : ServiceEnv) (keys : List String) (s : ServiceState)
    (k : String) :
    lookupKey (tickLoop env s keys).state.activeDefinitions k =
      lookupKey s.activeDefinitions k ∨
    lookupKey (tickLoop env s keys).state.activeDefinitions k =
      some ⟨none, KeyEventState.IGNORED, none⟩ := by
  induction keys generalizing s with
  | nil => exact Or.inl rfl
  | cons key rest ih =>
      have hstep : lookupKey (tickStep env s key).state.activeDefinitions k =
          lookupKey s.activeDefinitions k ∨
          lookupKey (tickStep env s key).state.activeDefinitions k =
            some ⟨none, KeyEventState.IGNORED, none⟩ := by
        rcases tickStep_state env s key with hs | ⟨ex, e, hs⟩ <;> rw [hs]
        · exact Or.inl rfl
        · exact executeAction_lookup env s ex key e k
      unfold tickLoop
      split
      next s1 tr1 er heq =>
        rw [heq] at hstep
        exact hstep
      next s1 tr1 heq =>
        rw [heq] at hstep
        rcases ih s1 with h1 | h1
        · rcases hstep with h2 | h2
          · exact Or.inl (h1.trans h2)
          · exact Or.inr (h1.trans h2)
        · exact Or.inr h1

/-! The claim theorems. -/

/-- C1, counterexample: the claim states that a key-up while `IGNORED`
returns the key to released WITHOUT invoking `done`, and that `done` fires
only on release of an accepted press.  In the code `handleKeyup` invokes
`done` whenever the binding declares one, without consulting the prior state:
in the reachable state `sIgn` the key "A" is `IGNORED` (its press was
cancelled), yet the key-up still fires the `done` callback. -/
theorem C1_counterexample :
    lookupKey sIgn.activeDefinitions "A" = some ⟨none, KeyEventState.IGNORED, none⟩ ∧
    (handleKeyup env0 sIgn e65).trace = [Obs.doneCall 7 (some e65)] := ⟨rfl, rfl⟩

/-- C1, amended: for every key-up whose canonical key has a binding in the
installed set, the key's entry is reset to `NOT_PRESSED` (recording the
key-up event and clearing the action snapshot), no exception escapes, and the
`done` callback is invoked exactly once when the binding declares one and not
at all otherwise — regardless of the key's prior state (`PRESSED`, `IGNORED`
or already released). -/
theorem C1_keyup_resets_and_fires_done (env : ServiceEnv) (s : ServiceState) (e : KeyboardEvent)
    (defs : KeyboardControlDefinition) (b : KeyboardControlParams)
    (hdefs : s.currentDefinitions = some defs)
    (hb : lookupKey defs (s.keyMappingFn e) = some b) :
    (handleKeyup env s e).err = none ∧
    lookupKey (handleKeyup env s e).state.activeDefinitions (s.keyMappingFn e) =
      some ⟨some e, KeyEventState.NOT_PRESSED, none⟩ ∧
    (handleKeyup env s e).trace =
      (match b.done with
       | some d => [Obs.doneCall d (some e)]
       | none => []) := by
  unfold handleKeyup
  split
  next hn => rw [hdefs] at hn; exact Option.noConfusion hn
  next defs2 hsome =>
    rw [hdefs] at hsome
    injection hsome with hsome
    subst hsome
    split
    next hl => rw [hb] at hl; exact Option.noConfusion hl
    next b2 hl =>
      rw [hb] at hl
      injection hl with hl
      subst hl
      split
      next d hdone =>
        exact ⟨rfl, lookupKey_setKey_self _ _ _, rfl⟩
      next hdone =>
        exact ⟨rfl, lookupKey_setKey_self _ _ _, rfl⟩

/-- C1, witness: in the concrete `IGNORED` state `sIgn`, the key-up of "A"
resets the entry and fires the declared `done` callback. -/
theorem C1_witness :
    (handleKeyup env0 sCDd e65).err = none ∧
    lookupKey (handleKeyup env0 sCDd e65).state.activeDefinitions (sCDd.keyMappingFn e65) =
      some ⟨some e65, KeyEventState.NOT_PRESSED, none⟩ ∧
    (handleKeyup env0 sCDd e65).trace = [Obs.doneCall 7 (some e65)] := by
  have h := C1_keyup_resets_and_fires_done env0 sCDd e65 defsCancelDone bCancelDone rfl rfl
  exact ⟨h.1, h.2.1, h.2.2⟩

/-- C2, counterexample: the claim states that after an install no Key Run
State entries exist for keys outside the installed set.  `setKeyboardControls`
never clears `_activeDefinitions`: after installing `defsA1`, pressing "A"
and re-installing `defsB` (which does not bind "A"), the stale "A" entry is
still present — and still `PRESSED`. -/
theorem C2_counterexample :
    sC2inst.currentDefinitions = some defsB ∧
    lookupKey defsB "A" = none ∧
    (lookupKey sC2inst.activeDefinitions "A").map (fun ad => ad.state) =
      some KeyEventState.PRESSED := ⟨rfl, rfl, rfl⟩

/-- C2, amended: after installing a binding set, every key declared in the
set has exactly one fresh entry, `NOT_PRESSED` with empty snapshot, regardless
of prior state; entries of keys outside the set are left exactly as they were
(so stale entries from a previously installed set persist). -/
theorem C2_install_resets_declared_keys (s : ServiceState) (d : KeyboardControlDefinition)
    (km : Option KeyMapper) (z : Bool) (k : String) :
    (k ∈ d.map Prod.fst →
      lookupKey (setKeyboardControls s (some d) km z).activeDefinitions k =
        some ⟨none, KeyEventState.NOT_PRESSED, none⟩) ∧
    (k ∉ d.map Prod.fst →
      lookupKey (setKeyboardControls s (some d) km z).activeDefinitions k =
        lookupKey s.activeDefinitions k) := by
  constructor <;> intro hmem <;> rw [setKeyboardControls_lookup] <;> simp [hmem]

/-- C2, witness: installing `defsB` over the pressed state `sA1d` resets "B"
and leaves the stale "A" entry untouched. -/
theorem C2_witness :
    lookupKey (setKeyboardControls sA1d (some defsB) none false).activeDefinitions "B" =
      some ⟨none, KeyEventState.NOT_PRESSED, none⟩ ∧
    lookupKey (setKeyboardControls sA1d (some defsB) none false).activeDefinitions "A" =
      lookupKey sA1d.activeDefinitions "A" :=
  ⟨(C2_install_resets_declared_keys sA1d defsB none false "B").1 (by decide),
   (C2_install_resets_declared_keys sA1d defsB none false "A").2 (by decide)⟩

/-- C3, counterexample: the claim states that after `remove()` every handler
invocation is a no-op and does not throw.  With `_currentDefinitions = null`,
`getAction` reads a property of `null`, so the key-down handler throws a
`TypeError`. -/
theorem C3_counterexample :
    (handleKeydown env0 sRem e65).err = some JsError.typeError := rfl

/-- C3, amended: after `remove()` (no binding set installed), the tick handler
is a no-op — no state change, no callback, no exception; the key-down and
key-up handlers change no state and invoke no callback, but each throws a
`TypeError` (from reading a property of the null definitions table) instead
of returning silently. -/
theorem C3_handlers_after_remove (env : ServiceEnv) (s : ServiceState) (e : KeyboardEvent)
    (h : s.currentDefinitions = none) :
    handleTick env s = ⟨s, [], none⟩ ∧
    handleKeydown env s e = ⟨s, [], some JsError.typeError⟩ ∧
    handleKeyup env s e = ⟨s, [], some JsError.typeError⟩ := by
  refine ⟨handleTick_noDefs env s h, ?_, ?_⟩
  · unfold handleKeydown
    rw [h]
  · unfold handleKeyup
    rw [h]

/-- C3, witness: concrete run of all three handlers on the removed state. -/
theorem C3_witness :
    handleTick env0 sRem = ⟨sRem, [], none⟩ ∧
    handleKeydown env0 sRem e65 = ⟨sRem, [], some JsError.typeError⟩ ∧
    handleKeyup env0 sRem e65 = ⟨sRem, [], some JsError.typeError⟩ :=
  C3_handlers_after_remove env0 sRem e65 rfl

/-- C4, counterexample: the claim states that when one pressed key's action
throws during a tick, every other pressed key's action is still executed on
that same tick.  The `forEach` in `handleTick` is aborted by the exception:
in `sThd2` both "A" and "B" are pressed, "A"'s action throws, and the tick
trace contains only the invocation of "A" — "B"'s action is never called,
and the exception propagates. -/
theorem C4_counterexample :
    (lookupKey sThd2.activeDefinitions "B").map (fun ad => ad.state) =
      some KeyEventState.PRESSED ∧
    (handleTick env0 sThd2).trace = [Obs.actionCall "A" [] (some e65)] ∧
    (handleTick env0 sThd2).err = some JsError.userException := ⟨rfl, rfl, rfl⟩

/-- C4, amended: an exception thrown by one key's action during `onTick`
propagates out of the tick handler and the keys after it in that tick's
iteration are skipped; however no key's stored run state is corrupted — after
any tick (throwing or not) every entry is either exactly as before or set to
`⟨none, IGNORED, none⟩` by its own cancellation — so the engine remains
callable on the next tick. -/
theorem C4_tick_preserves_entries (env : ServiceEnv) (s : ServiceState) (k : String) :
    lookupKey (handleTick env s).state.activeDefinitions k =
      lookupKey s.activeDefinitions k ∨
    lookupKey (handleTick env s).state.activeDefinitions k =
      some ⟨none, KeyEventState.IGNORED, none⟩ :=
  tickLoop_lookup_entry env _ s k

/-- C5, counterexample: the claim states that the action snapshot and the
originating event are populated iff the state is `PRESSED` or `IGNORED`.  In
the reachable state `sIgn`, "A" is `IGNORED` and yet both fields are empty:
cancellation stores `⟨null, IGNORED, null⟩`. -/
theorem C5_counterexample :
    lookupKey sIgn.activeDefinitions "A" =
      some ⟨none, KeyEventState.IGNORED, none⟩ ∧
    (handleKeyup env0 sIgn e66).trace = [] := ⟨rfl, rfl⟩

/-- C5, amended: in every reachable service state, a `PRESSED` entry has both
the action snapshot and the originating event populated; an `IGNORED` entry
has both empty (cancellation clears them); a `NOT_PRESSED` entry has no
action snapshot (its event field is empty after install but records the
key-up event after a release). -/
theorem C5_snapshot_invariant (env : ServiceEnv) (s : ServiceState) (h : Reachable env s) :
    stateInv s := by
  induction h with
  | init => exact stateInv_initial
  | install defs km z hr ih => exact stateInv_install _ defs km z ih
  | remove hr ih => exact stateInv_remove _ ih
  | keydown e hr ih => exact stateInv_handleKeydown env _ e ih
  | keyup e hr ih => exact stateInv_handleKeyup env _ e ih
  | tick hr ih => exact stateInv_tickLoop env _ _ ih

/-- C5, witness: the invariant instantiated at the concrete reachable state
`sIgn` (install, key-down, tick with a cancelling action). -/
theorem C5_witness : stateInv sIgn :=
  C5_snapshot_invariant env0 sIgn
    (Reachable.tick (Reachable.keydown e65
      (Reachable.install (some defsCancelDone) none false Reachable.init)))

/-- C6: for a pressed key bound to a callback action, (1) a tick execution in
which the callback returns the literal `false` drives the key's entry to
`⟨null, IGNORED, null⟩`; (2) any other returned value leaves the whole state
unchanged (the key stays `PRESSED`); (3) once the entry is `IGNORED`, any
sequence of key-downs, key-ups of other keys and ticks keeps it `IGNORED` and
never invokes that key's action again. -/
theorem C6_cancellation_semantics (env : ServiceEnv) :
    (∀ (s : ServiceState) (b : KeyboardControlParams) (k : String) (e : Option KeyboardEvent)
        (f : KeyboardControlActionFn),
      s.currentDefinitions ≠ none →
      b.action = ActionDef.callback f →
      f env.cs (getParams env.cs b.params e).1 e = CallOutcome.retFalse →
      lookupKey (executeAction env s b k e).state.activeDefinitions k =
        some ⟨none, KeyEventState.IGNORED, none⟩) ∧
    (∀ (s : ServiceState) (b : KeyboardControlParams) (k : String) (e : Option KeyboardEvent)
        (f : KeyboardControlActionFn),
      b.action = ActionDef.callback f →
      f env.cs (getParams env.cs b.params e).1 e ≠ CallOutcome.retFalse →
      f env.cs (getParams env.cs b.params e).1 e ≠ CallOutcome.thrown →
      (executeAction env s b k e).state = s) ∧
    (∀ (s : ServiceState) (k : String) (evs : List InputEvent),
      lookupKey s.activeDefinitions k = some ⟨none, KeyEventState.IGNORED, none⟩ →
      (∀ e : KeyboardEvent, InputEvent.keyup e ∈ evs → s.keyMappingFn e ≠ k) →
      lookupKey (runEvents env s evs).state.activeDefinitions k =
        some ⟨none, KeyEventState.IGNORED, none⟩ ∧
      ∀ (p : Params) (e2 : Option KeyboardEvent),
        Obs.actionCall k p e2 ∉ (runEvents env s evs).trace) := by
  refine ⟨?_, ?_, ?_⟩
  · intro s b k e f hdefs hact hret
    rw [executeAction_callback_eq env s b k e f hact (isNoneFalse hdefs), hret]
    exact lookupKey_setKey_self _ _ _
  · intro s b k e f hact hnf hnt
    cases hn : s.currentDefinitions.isNone
    · rw [executeAction_callback_eq env s b k e f hact hn]
      cases hout : f env.cs (getParams env.cs b.params e).1 e
      · exact absurd hout hnf
      · rfl
      · exact absurd hout hnt
    · unfold executeAction
      rw [hn]
      rfl
  · exact fun s k evs h hkeyup => runEvents_preserves_ignored env evs s k h hkeyup

/-- C6, witness: in the concrete cancelled state `sIgn`, a tick followed by a
key-down of "A" leaves "A" `IGNORED` with a cleared snapshot. -/
theorem C6_witness :
    lookupKey (runEvents env0 sIgn
        [InputEvent.tick, InputEvent.keydown e65]).state.activeDefinitions "A" =
      some ⟨none, KeyEventState.IGNORED, none⟩ :=
  ((C6_cancellation_semantics env0).2.2 sIgn "A" [InputEvent.tick, InputEvent.keydown e65]
    rfl (by intro e he; simp at he)).1

/-- C7, counterexample: the claim states that installing an empty binding set
is equivalent to `remove()`.  The code only falls back to
`removeKeyboardControls` for a falsy (`null`/`undefined`) argument; an
empty-but-present object is truthy, so `install({})` registers the listeners
and stores the empty table, whereas `remove()` detaches and nulls it — and a
subsequent key-down throws after `remove()` but not after `install({})`. -/
theorem C7_counterexample :
    (setKeyboardControls initialState (some []) none false).registered = true ∧
    (removeKeyboardControls initialState).registered = false ∧
    (setKeyboardControls initialState (some []) none false).currentDefinitions = some [] ∧
    (removeKeyboardControls initialState).currentDefinitions = none ∧
    (handleKeydown env0 (setKeyboardControls initialState (some []) none false) e65).err =
      none ∧
    (handleKeydown env0 (removeKeyboardControls initialState) e65).err =
      some JsError.typeError := ⟨rfl, rfl, rfl, rfl, rfl, rfl⟩

/-- C7, amended: installing a null/absent binding set is exactly `remove()`,
for every prior engine state; an empty-but-present binding set is instead
installed like any other set. -/
theorem C7_null_install_is_remove (s : ServiceState) (km : Option KeyMapper) (z : Bool) :
    setKeyboardControls s none km z = removeKeyboardControls s := rfl

/-- C8: executing a binding whose action is a numeric id never changes the
state and never throws; if the id is absent from the externally supplied
built-in table the dispatch does nothing beyond resolving params, and if it
is present the built-in is invoked once with the resolved params and the
originating event, its return value ignored — so a built-in can never drive
the key to IGNORED. -/
theorem C8_predefined_dispatch (env : ServiceEnv) (s : ServiceState)
    (b : KeyboardControlParams) (k : String) (e : Option KeyboardEvent) (id : Nat)
    (hact : b.action = ActionDef.predefined id) (hdefs : s.currentDefinitions ≠ none) :
    (executeAction env s b k e).state = s ∧
    (executeAction env s b k e).err = none ∧
    (env.predef id = false →
      (executeAction env s b k e).trace = (getParams env.cs b.params e).2) ∧
    (env.predef id = true →
      (executeAction env s b k e).trace =
        (getParams env.cs b.params e).2 ++
          [Obs.predefinedCall id (getParams env.cs b.params e).1 e]) := by
  rw [executeAction_predefined_eq env s b k e id hact (isNoneFalse hdefs)]
  cases hp : env.predef id
  · exact ⟨rfl, rfl, fun _ => rfl, fun hc => Bool.noConfusion hc⟩
  · exact ⟨rfl, rfl, fun hc => Bool.noConfusion hc, fun _ => rfl⟩

/-- C8, witness: with an empty built-in table, executing the numeric binding
`bB3` on the installed state `sInst` is a silent no-op. -/
theorem C8_witness :
    (executeAction env0 sInst bB3 "A" (some e65)).state = sInst ∧
    (executeAction env0 sInst bB3 "A" (some e65)).err = none ∧
    (executeAction env0 sInst bB3 "A" (some e65)).trace = [] := by
  have h := C8_predefined_dispatch env0 sInst bB3 "A" (some e65) 3 rfl (by simp [sInst])
  exact ⟨h.1, h.2.1, h.2.2.1 rfl⟩

/-- C9: the param resolver returns an empty mapping for an absent `paramsDef`,
invokes a callable `paramsDef` with `(controller, event)` and returns its
result verbatim, returns any other `paramsDef` unchanged; and every action
execution re-runs the resolver (its trace is a prefix of the execution
trace), so params are resolved afresh on each invocation. -/
theorem C9_param_resolution :
    (∀ (cs : CesiumService) (e : Option KeyboardEvent),
      getParams cs ParamsDef.empty e = ([], [])) ∧
    (∀ (cs : CesiumService) (f : CesiumService → Option KeyboardEvent → Params)
        (e : Option KeyboardEvent),
      getParams cs (ParamsDef.fn f) e = (f cs e, [Obs.paramsFnCall e])) ∧
    (∀ (cs : CesiumService) (m : Params) (e : Option KeyboardEvent),
      getParams cs (ParamsDef.static m) e = (m, [])) ∧
    (∀ (env : ServiceEnv) (s : ServiceState) (b : KeyboardControlParams) (k : String)
        (e : Option KeyboardEvent), s.currentDefinitions ≠ none →
      ∃ rest, (executeAction env s b k e).trace =
        (getParams env.cs b.params e).2 ++ rest) := by
  refine ⟨fun _ _ => rfl, fun _ _ _ => rfl, fun _ _ _ => rfl, ?_⟩
  intro env s b k e hdefs
  have hnone := isNoneFalse hdefs
  cases hact : b.action with
  | predefined id =>
      rw [executeAction_predefined_eq env s b k e id hact hnone]
      cases hp : env.predef id
      · exact ⟨[], (List.append_nil _).symm⟩
      · exact ⟨[Obs.predefinedCall id (getParams env.cs b.params e).1 e], rfl⟩
  | callback f =>
      rw [executeAction_callback_eq env s b k e f hact hnone]
      cases hout : f env.cs (getParams env.cs b.params e).1 e
      · exact ⟨[Obs.actionCall k (getParams env.cs b.params e).1 e], rfl⟩
      · exact ⟨[Obs.actionCall k (getParams env.cs b.params e).1 e], rfl⟩
      · exact ⟨[Obs.actionCall k (getParams env.cs b.params e).1 e], rfl⟩

/-- C9, witness: executing the binding `bPfn`, whose params field is a
function, performs the params-function invocation as a prefix of its trace. -/
theorem C9_witness :
    ∃ rest, (executeAction env0 sInst bPfn "A" (some e65)).trace =
      (getParams env0.cs bPfn.params (some e65)).2 ++ rest :=
  C9_param_resolution.2.2.2 env0 sInst bPfn "A" (some e65) (by simp [sInst])

/-- C10: cancellation is local — when a key's callback action returns the
literal `false`, only that key's entry changes (to `⟨null, IGNORED, null⟩`);
every other key's entry, the installed binding set and the key mapper are
unchanged. -/
theorem C10_cancellation_isolated (env : ServiceEnv) (s : ServiceState)
    (b : KeyboardControlParams) (k : String) (e : Option KeyboardEvent)
    (f : KeyboardControlActionFn)
    (hact : b.action = ActionDef.callback f)
    (hdefs : s.currentDefinitions ≠ none)
    (hcancel : f env.cs (getParams env.cs b.params e).1 e = CallOutcome.retFalse) :
    lookupKey (executeAction env s b k e).state.activeDefinitions k =
      some ⟨none, KeyEventState.IGNORED, none⟩ ∧
    (∀ k2, k2 ≠ k →
      lookupKey (executeAction env s b k e).state.activeDefinitions k2 =
        lookupKey s.activeDefinitions k2) ∧
    (executeAction env s b k e).state.currentDefinitions = s.currentDefinitions ∧
    (executeAction env s b k e).state.keyMappingFn = s.keyMappingFn := by
  rw [executeAction_callback_eq env s b k e f hact (isNoneFalse hdefs), hcancel]
  exact ⟨lookupKey_setKey_self _ _ _, fun k2 hk => lookupKey_setKey_other _ _ _ _ hk, rfl, rfl⟩

/-- C10, witness: cancelling "A" in the two-key state `sTwo` drives "A" to
IGNORED and leaves "B" and the installed set untouched. -/
theorem C10_witness :
    lookupKey (executeAction env0 sTwo bCancel "A" (some e65)).state.activeDefinitions "A" =
      some ⟨none, KeyEventState.IGNORED, none⟩ ∧
    lookupKey (executeAction env0 sTwo bCancel "A" (some e65)).state.activeDefinitions "B" =
      lookupKey sTwo.activeDefinitions "B" ∧
    (executeAction env0 sTwo bCancel "A" (some e65)).state.currentDefinitions =
      sTwo.currentDefinitions := by
  have h := C10_cancellation_isolated env0 sTwo bCancel "A" (some e65)
    (fun _ _ _ => CallOutcome.retFalse) rfl (by simp [sTwo]) rfl
  exact ⟨h.1, h.2.1 "B" (by decide), h.2.2.1⟩
